import Mathlib

/-!
Shallow embedding of the usage-ledger, quota, task-gate, security-tracker,
pending-video-task and streaming-orchestrator logic of the aka-ai-generator
plugin (src/src/services/UserManager.ts, src/src/orchestrators/VideoOrchestrator.ts,
src/unnamed/part_000, src/src/providers/gemini.ts and gptgod.ts).

Modelling conventions:
- JS numbers that hold integral counts are modelled as `Int` (so that
  non-negativity claims are meaningful); timestamps are `Nat` milliseconds
  since the epoch, compared as `Int` where the source subtracts.
- `new Date(x).toDateString()` equality is modelled as equality of the
  calendar-day index `dayOf x = x / 86400000`.
- JS `Map` / plain-object tables are association lists with the JS
  semantics of `set` (replace in place or append) and `delete`.
- Disk persistence (`saveUsersDataInternal` etc.) has no observable effect
  besides the in-memory cache in the source, so state is the cache itself.
-/

namespace AkaGen

/-! ### Association-list maps (JS Map / Record semantics) -/

/-- Lookup in an association list (first binding wins, as JS keys are unique). -/
def findV {κ α : Type} [DecidableEq κ] : List (κ × α) → κ → Option α
  | [], _ => none
  | (k, v) :: rest, key => if k = key then some v else findV rest key

/-- JS `map.set` / `obj[k] = v`: replace the existing binding in place, else append. -/
def setV {κ α : Type} [DecidableEq κ] : List (κ × α) → κ → α → List (κ × α)
  | [], key, v => [(key, v)]
  | (k, w) :: rest, key, v =>
    if k = key then (key, v) :: rest else (k, w) :: setV rest key v

/-- JS `map.delete` / `delete obj[k]`: remove the binding for the key. -/
def delV {κ α : Type} [DecidableEq κ] : List (κ × α) → κ → List (κ × α)
  | [], _ => []
  | (k, w) :: rest, key => if k = key then rest else (k, w) :: delV rest key

/-! ### Time -/

/-- Milliseconds per calendar day. -/
def msPerDay : Nat := 86400000

/-- Calendar-day index of a millisecond timestamp; `dayOf a = dayOf b` models
`new Date(a).toDateString() === new Date(b).toDateString()`. -/
def dayOf (t : Nat) : Nat := t / msPerDay

/-! ### Data model (UserManager.ts lines 29-92, part_000 Config lines 70-96) -/

/-- UserData (UserManager.ts lines 29-41). -/
structure UserData where
  userId : String
  userName : String
  totalUsageCount : Int
  dailyUsageCount : Int
  lastDailyReset : Nat
  purchasedCount : Int
  remainingPurchasedCount : Int
  donationCount : Int
  donationAmount : Int
  lastUsed : Nat
  createdAt : Nat
  deriving DecidableEq

/-- PendingVideoTask (UserManager.ts lines 77-86). -/
structure PendingVideoTask where
  taskId : String
  userId : String
  userName : String
  commandName : String
  credits : Int
  createdAt : Nat
  charged : Bool
  chargedAt : Option Nat
  deriving DecidableEq

/-- The configuration fields consumed by the modelled code (part_000 lines 70-96). -/
structure Config where
  adminUsers : List String
  unlimitedPlatforms : List String
  dailyFreeLimit : Int
  rateLimitWindow : Nat
  rateLimitMax : Nat
  securityBlockWindow : Nat
  securityBlockWarningThreshold : Nat
  videoCreditsMultiplier : Int
  deriving DecidableEq

/-- The in-memory state of one UserManager instance (UserManager.ts lines 101-112):
the users cache, the pending-video-task cache, the two per-user task locks, the
rate-limit window, and the security-block window plus warned latch. -/
structure UserManagerState where
  users : List (String × UserData)
  pendingTasks : List (String × PendingVideoTask)
  activeTasks : List String
  activeVideoTasks : List String
  rateLimitMap : List (String × List Nat)
  securityBlockMap : List (String × List Nat)
  securityWarningMap : List (String × Bool)
  deriving DecidableEq

/-- The empty state of a freshly constructed UserManager. -/
def initialState : UserManagerState :=
  { users := [], pendingTasks := [], activeTasks := [], activeVideoTasks := [],
    rateLimitMap := [], securityBlockMap := [], securityWarningMap := [] }

/-! ### Task gate (UserManager.ts lines 130-157) -/

/-- startTask (lines 130-134): non-blocking single-slot image-task lock. -/
def startTask (st : UserManagerState) (userId : String) : UserManagerState × Bool :=
  if st.activeTasks.contains userId then (st, false)
  else ({ st with activeTasks := userId :: st.activeTasks }, true)

/-- endTask (lines 136-138). -/
def endTask (st : UserManagerState) (userId : String) : UserManagerState :=
  { st with activeTasks := st.activeTasks.filter (fun u => !(u == userId)) }

/-- startVideoTask (lines 145-149): independent single-slot video-task lock. -/
def startVideoTask (st : UserManagerState) (userId : String) : UserManagerState × Bool :=
  if st.activeVideoTasks.contains userId then (st, false)
  else ({ st with activeVideoTasks := userId :: st.activeVideoTasks }, true)

/-- endVideoTask (lines 151-153). -/
def endVideoTask (st : UserManagerState) (userId : String) : UserManagerState :=
  { st with activeVideoTasks := st.activeVideoTasks.filter (fun u => !(u == userId)) }

/-- isVideoTaskActive (lines 155-157). -/
def isVideoTaskActive (st : UserManagerState) (userId : String) : Bool :=
  st.activeVideoTasks.contains userId

/-- isAdmin (lines 161-163). -/
def isAdmin (userId : String) (config : Config) : Bool :=
  config.adminUsers.contains userId

/-! ### Rate limiter (UserManager.ts lines 470-496) -/

structure RateLimitResult where
  allowed : Bool
  message : Option String
  deriving DecidableEq

/-- Ceiling of the rational a / b for b > 0, as JS Math.ceil after division. -/
def jsCeilDiv (a b : Int) : Int := -(Int.fdiv (-a) b)

/-- checkRateLimit (lines 470-489): prune the sliding window, store the pruned
window back, deny with a wait message when it is full. -/
def checkRateLimit (st : UserManagerState) (config : Config) (userId : String) (now : Nat) :
    UserManagerState × RateLimitResult :=
  let userTimestamps := (findV st.rateLimitMap userId).getD []
  let windowStart : Int := (now : Int) - (config.rateLimitWindow : Int) * 1000
  let validTimestamps := userTimestamps.filter (fun (t : Nat) => decide ((t : Int) > windowStart))
  let st := { st with rateLimitMap := setV st.rateLimitMap userId validTimestamps }
  if validTimestamps.length ≥ config.rateLimitMax then
    (st, { allowed := false,
           message := some ("操作过于频繁，请" ++
             toString (jsCeilDiv (((validTimestamps.head?.getD 0 : Nat) : Int) +
               (config.rateLimitWindow : Int) * 1000 - (now : Int)) 1000) ++ "秒后再试") })
  else
    (st, { allowed := true, message := none })

/-- updateRateLimit (lines 491-496): append the admission timestamp. -/
def updateRateLimit (st : UserManagerState) (userId : String) (now : Nat) : UserManagerState :=
  let userTimestamps := (findV st.rateLimitMap userId).getD []
  { st with rateLimitMap := setV st.rateLimitMap userId (userTimestamps ++ [now]) }

/-! ### Account access (UserManager.ts lines 378-406) -/

/-- The fresh account written by getUserData (lines 387-399). -/
def newUserData (userId userName : String) (now : Nat) : UserData :=
  { userId := userId, userName := userName, totalUsageCount := 0, dailyUsageCount := 0,
    lastDailyReset := now, purchasedCount := 0, remainingPurchasedCount := 0,
    donationCount := 0, donationAmount := 0, lastUsed := now, createdAt := now }

/-- getUserData (lines 378-406): return the cached account, creating it lazily. -/
def getUserData (st : UserManagerState) (userId userName : String) (now : Nat) :
    UserManagerState × UserData :=
  match findV st.users userId with
  | some u => (st, u)
  | none =>
    let u := newUserData userId userName now
    ({ st with users := setV st.users userId u }, u)

/-! ### Quota check (UserManager.ts lines 547-608) -/

inductive ReservationTag where
  | admin
  | platformExempt
  | reserved
  deriving DecidableEq

structure QuotaCheckResult where
  allowed : Bool
  message : Option String
  reservationId : Option ReservationTag
  deriving DecidableEq

/-- The denial message of checkAndReserveQuota (line 600). -/
def quotaDeniedMessage (numImages remainingToday purchased total : Int) : String :=
  "生成 " ++ toString numImages ++ " 张图片需要 " ++ toString numImages ++
  " 次可用次数，但您的可用次数不足（今日免费剩余：" ++ toString remainingToday ++
  "次，充值剩余：" ++ toString purchased ++ "次，共" ++ toString total ++ "次）"

/-- checkAndReserveQuota (lines 547-608): admin and exempt-platform bypass, rate
limiting, lazy account creation, then the advisory availability check computed
with the lazy daily reset applied in memory only. -/
def checkAndReserveQuota (st : UserManagerState) (config : Config)
    (userId userName : String) (numImages : Int) (platform : Option String) (now : Nat) :
    UserManagerState × QuotaCheckResult :=
  if isAdmin userId config then
    (st, { allowed := true, message := none, reservationId := some .admin })
  else if (match platform with
           | some p => config.unlimitedPlatforms.contains p
           | none => false) then
    (st, { allowed := true, message := none, reservationId := some .platformExempt })
  else
    let (st, rl) := checkRateLimit st config userId now
    if !rl.allowed then
      (st, { allowed := false, message := rl.message, reservationId := none })
    else
      let st := updateRateLimit st userId now
      let (st, ud) := getUserData st userId userName now
      let cachedUserData := (findV st.users userId).getD ud
      let today := dayOf now
      let lastReset := dayOf cachedUserData.lastDailyReset
      let dailyCount := if today ≠ lastReset then 0 else cachedUserData.dailyUsageCount
      let remainingToday := max 0 (config.dailyFreeLimit - dailyCount)
      let totalAvailable := remainingToday + cachedUserData.remainingPurchasedCount
      if totalAvailable < numImages then
        (st, { allowed := false,
               message := some (quotaDeniedMessage numImages remainingToday
                 cachedUserData.remainingPurchasedCount totalAvailable),
               reservationId := none })
      else
        (st, { allowed := true, message := none, reservationId := some .reserved })

/-! ### Consumption (UserManager.ts lines 611-732) -/

inductive ConsumptionType where
  | free
  | purchased
  | mixed
  deriving DecidableEq

structure ConsumeResult where
  userData : UserData
  consumptionType : ConsumptionType
  freeUsed : Int
  purchasedUsed : Int
  deriving DecidableEq

/-- consumeQuota (lines 653-732): unconditional totalUsageCount increment, lazy
daily reset persisted, free allowance consumed first, then purchased balance. -/
def consumeQuota (st : UserManagerState) (config : Config)
    (userId userName commandName : String) (numImages : Int) (now : Nat) :
    UserManagerState × ConsumeResult :=
  let userData := match findV st.users userId with
    | some u => u
    | none => newUserData userId (if userName = "" then userId else userName) now
  let userData := { userData with
    totalUsageCount := userData.totalUsageCount + numImages, lastUsed := now }
  let userData := if dayOf now ≠ dayOf userData.lastDailyReset then
      { userData with dailyUsageCount := 0, lastDailyReset := now }
    else userData
  let availableFree := max 0 (config.dailyFreeLimit - userData.dailyUsageCount)
  let freeUsed := if availableFree > 0 then min availableFree numImages else 0
  let userData := { userData with dailyUsageCount := userData.dailyUsageCount + freeUsed }
  let remainingToConsume := numImages - freeUsed
  let purchasedUsed := if remainingToConsume > 0 then
      min userData.remainingPurchasedCount remainingToConsume
    else 0
  let userData := { userData with
    remainingPurchasedCount := userData.remainingPurchasedCount - purchasedUsed }
  let consumptionType : ConsumptionType :=
    if freeUsed > 0 ∧ purchasedUsed > 0 then .mixed
    else if freeUsed > 0 then .free
    else .purchased
  ({ st with users := setV st.users userId userData },
   { userData := userData, consumptionType := consumptionType,
     freeUsed := freeUsed, purchasedUsed := purchasedUsed })

/-- recordUsageOnly (lines 611-650): increment totalUsageCount and lastUsed only. -/
def recordUsageOnly (st : UserManagerState) (userId userName commandName : String)
    (numImages : Int) (now : Nat) : UserManagerState × UserData :=
  let userData := match findV st.users userId with
    | some u => u
    | none => newUserData userId (if userName = "" then userId else userName) now
  let userData := { userData with
    totalUsageCount := userData.totalUsageCount + numImages, lastUsed := now }
  ({ st with users := setV st.users userId userData }, userData)

/-! ### Recharge (part_000 lines 2036-2073) -/

/-- One target of the recharge command executed inside updateUsersBatch
(part_000 lines 2037-2062): create the account if absent (with userName equal
to the userId), then credit the amount to both purchase counters. The command
only reaches this code with a validated amount greater than 0 (line 2019). -/
def rechargeUser (st : UserManagerState) (userId : String) (amount : Int) (now : Nat) :
    UserManagerState :=
  let u := match findV st.users userId with
    | some u => u
    | none => newUserData userId userId now
  let u := { u with purchasedCount := u.purchasedCount + amount,
                    remainingPurchasedCount := u.remainingPurchasedCount + amount }
  { st with users := setV st.users userId u }

/-! ### Security-block tracker (UserManager.ts lines 735-765) -/

structure SecurityBlockResult where
  shouldWarn : Bool
  shouldDeduct : Bool
  blockCount : Nat
  deriving DecidableEq

/-- recordSecurityBlock (lines 735-765): empty-id and admin exemptions, sliding
window prune and append, one-time warn latch at the threshold, deduction on
every rejection strictly above the threshold. -/
def recordSecurityBlock (st : UserManagerState) (config : Config) (userId : String)
    (now : Nat) : UserManagerState × SecurityBlockResult :=
  if userId = "" then (st, { shouldWarn := false, shouldDeduct := false, blockCount := 0 })
  else if isAdmin userId config then
    (st, { shouldWarn := false, shouldDeduct := false, blockCount := 0 })
  else
    let windowStart : Int := (now : Int) - (config.securityBlockWindow : Int) * 1000
    let blockTimestamps :=
      ((findV st.securityBlockMap userId).getD []).filter
        (fun (t : Nat) => decide ((t : Int) > windowStart))
    let blockTimestamps := blockTimestamps ++ [now]
    let st := { st with securityBlockMap := setV st.securityBlockMap userId blockTimestamps }
    let blockCount := blockTimestamps.length
    let hasWarning := (findV st.securityWarningMap userId).getD false
    if blockCount ≥ config.securityBlockWarningThreshold ∧ ¬ hasWarning then
      ({ st with securityWarningMap := setV st.securityWarningMap userId true },
       { shouldWarn := true, shouldDeduct := false, blockCount := blockCount })
    else if blockCount > config.securityBlockWarningThreshold then
      (st, { shouldWarn := false, shouldDeduct := true, blockCount := blockCount })
    else
      (st, { shouldWarn := false, shouldDeduct := false, blockCount := blockCount })

/-! ### Pending video tasks (UserManager.ts lines 261-375) -/

/-- countPendingVideoTasksForUser (lines 322-327): uncharged tasks of one user. -/
def countPendingVideoTasksForUser (st : UserManagerState) (userId : String) : Nat :=
  (st.pendingTasks.filter (fun e => decide (e.2.userId = userId) && !e.2.charged)).length

/-- The rejection message of addPendingVideoTaskWithLimit (line 362). -/
def pendingLimitMessage (currentCount maxCount : Nat) : String :=
  "您当前已有 " ++ toString currentCount ++ " 个视频正在生成中（最多允许 " ++
  toString maxCount ++ " 个），请先使用\"查询视频\"查看进度或等待完成"

structure AddPendingResult where
  success : Bool
  message : Option String
  deriving DecidableEq

/-- addPendingVideoTaskWithLimit (lines 347-375): count the uncharged tasks of
the submitting user under the pending lock, reject when at the limit, treat an
already-present taskId as success without overwriting, else insert. -/
def addPendingVideoTaskWithLimit (st : UserManagerState) (task : PendingVideoTask)
    (maxCount : Nat) : UserManagerState × AddPendingResult :=
  let currentCount := countPendingVideoTasksForUser st task.userId
  if currentCount ≥ maxCount then
    (st, { success := false, message := some (pendingLimitMessage currentCount maxCount) })
  else if (findV st.pendingTasks task.taskId).isSome then
    (st, { success := true, message := none })
  else
    ({ st with pendingTasks := setV st.pendingTasks task.taskId task },
     { success := true, message := none })

/-- markPendingVideoTaskCharged (lines 279-292): absent gives none; an
already-charged task is returned unchanged; else latch charged and chargedAt. -/
def markPendingVideoTaskCharged (st : UserManagerState) (taskId : String) (now : Nat) :
    UserManagerState × Option PendingVideoTask :=
  match findV st.pendingTasks taskId with
  | none => (st, none)
  | some task =>
    if task.charged then (st, some task)
    else
      let task := { task with charged := true, chargedAt := some now }
      ({ st with pendingTasks := setV st.pendingTasks taskId task }, some task)

/-- deletePendingVideoTask (lines 294-302): a no-op when the id is absent. -/
def deletePendingVideoTask (st : UserManagerState) (taskId : String) : UserManagerState :=
  if (findV st.pendingTasks taskId).isSome then
    { st with pendingTasks := delV st.pendingTasks taskId }
  else st

/-! ### Streaming image flow (part_000 lines 1114-1216; callback total from
gemini.ts line 712 and gptgod.ts line 442) -/

/-- The local state of one processImage streaming run: the number of images
pushed to generatedImages, the creditDeducted flag, and the list of unit counts
passed to recordUserUsage (each such call is one quota charge). -/
structure ImageFlowState where
  generatedImages : Nat
  creditDeducted : Bool
  charges : List Int
  deriving DecidableEq

/-- onImageGenerated (part_000 lines 1119-1187) for one successfully sent image:
push the image, and on the first delivery commit one charge of the total passed
by the provider. Both providers pass total = numImages, the originally
requested count (gemini.ts line 712, gptgod.ts line 442). -/
def onImageGenerated (total : Nat) (s : ImageFlowState) : ImageFlowState :=
  let s := { s with generatedImages := s.generatedImages + 1 }
  if ¬ s.creditDeducted ∧ s.generatedImages > 0 then
    { s with creditDeducted := true, charges := s.charges ++ [(total : Int)] }
  else s

/-- One whole streaming run of processImage (part_000 lines 1114-1216):
the provider invokes the callback once per delivered image with
total = requested, then either throws (failed = true, the charge state is left
as the callback left it) or returns returnedCount images, in which case the
fallback at lines 1212-1216 charges returnedCount only when no streaming charge
was committed and at least one image was returned (lines 1207-1209). -/
def processImageStream (requested delivered : Nat) (failed : Bool) (returnedCount : Nat) :
    ImageFlowState :=
  let s := (List.range delivered).foldl (fun s _ => onImageGenerated requested s)
    { generatedImages := 0, creditDeducted := false, charges := [] }
  if failed then s
  else if returnedCount = 0 then s
  else if ¬ s.creditDeducted then { s with charges := s.charges ++ [(returnedCount : Int)] }
  else s

/-! ### Video command flow (part_000 lines 1296-1393, VideoOrchestrator.ts) -/

/-- Outcome of one awaited external operation: a value, or a thrown exception. -/
inductive ExtCall (α : Type) where
  | ok (a : α)
  | throws
  deriving DecidableEq

/-- Outcome of getInputData (part_000 lines 625-758): a thrown transport
exception, an error result, or the collected images and text. -/
inductive InputOutcome where
  | throws
  | errorMsg (msg : String)
  | ok (images : List String) (text : Option String)
  deriving DecidableEq

/-- The behaviour of the external collaborators during one 图生视频 command:
the input collection, the prompt-for-description send, the description reply
(none models the null returned on prompt timeout), and the body of
runVideoGenerationFlow up to but excluding its finally block. -/
structure VideoCmdEnv where
  input : InputOutcome
  sendDescribe : ExtCall Unit
  promptReply : ExtCall (Option String)
  flowBody : ExtCall String
  deriving DecidableEq

/-- runVideoGenerationFlow (VideoOrchestrator.ts lines 26-128) at the
task-lock level: the whole body sits in a try whose catch (lines 116-124)
converts any exception into a returned message, and the finally (lines
125-127) releases the video task lock unconditionally. The body never touches
the lock, so it is abstracted to its outcome. -/
def runVideoGenerationFlowLock (st : UserManagerState) (userId : String)
    (flowBody : ExtCall String) : UserManagerState × String :=
  let result := match flowBody with
    | .ok r => r
    | .throws => "视频生成任务提交失败："
  (endVideoTask st userId, result)

/-- The parameter-validation tail of the 图生视频 action (part_000 lines
1358-1392): duration and ratio checks each release the lock on rejection, then
the flow runs with its own finally. -/
def videoCommandTail (st : UserManagerState) (userId : String)
    (durationOpt : Option Int) (ratioOpt : Option String) (env : VideoCmdEnv) :
    UserManagerState × ExtCall String :=
  let duration : Int := match durationOpt with
    | some d => if d = 0 then 15 else d
    | none => 15
  if duration ≠ 15 ∧ duration ≠ 25 then
    (endVideoTask st userId, .ok "视频时长必须是 15 或 25 秒")
  else
    let ratio := match ratioOpt with
      | some r => if r = "" then "16:9" else r
      | none => "16:9"
    if ¬ (["16:9", "9:16", "1:1"].contains ratio) then
      (endVideoTask st userId, .ok "宽高比必须是以下之一: 16:9, 9:16, 1:1")
    else
      let (st, r) := runVideoGenerationFlowLock st userId env.flowBody
      (st, .ok r)

/-- The 图生视频 command action (part_000 lines 1300-1393): quota pre-check,
video task-lock acquisition, input collection, interactive description
prompt, parameter validation, then runVideoGenerationFlow. A `.throws` result
models the action terminating with an uncaught exception from an awaited
external call; the source has no try/finally around the section between
startVideoTask (line 1322) and the flow call (line 1373), so those exits do
not pass through endVideoTask. -/
def videoCommandAction (st : UserManagerState) (config : Config)
    (userId userName : String) (platform : Option String)
    (durationOpt : Option Int) (ratioOpt : Option String)
    (env : VideoCmdEnv) (now : Nat) : UserManagerState × ExtCall String :=
  let videoCredits := config.videoCreditsMultiplier
  let (st, limitCheck) := checkAndReserveQuota st config userId userName videoCredits platform now
  if ¬ limitCheck.allowed then (st, .ok (limitCheck.message.getD ""))
  else
    let (st, started) := startVideoTask st userId
    if ¬ started then (st, .ok "您有一个视频任务正在进行中，请等待完成")
    else
      match env.input with
      | .throws => (st, .throws)
      | .errorMsg msg => (endVideoTask st userId, .ok msg)
      | .ok images text =>
        if images.isEmpty then (endVideoTask st userId, .ok "未检测到输入图片，请发送一张图片")
        else
          let prompt := text.getD ""
          if prompt = "" then
            match env.sendDescribe with
            | .throws => (st, .throws)
            | .ok _ =>
              match env.promptReply with
              | .throws => (st, .throws)
              | .ok none => (endVideoTask st userId, .ok "等待超时")
              | .ok (some t) =>
                if t = "" then (endVideoTask st userId, .ok "未检测到描述")
                else videoCommandTail st userId durationOpt ratioOpt env
          else videoCommandTail st userId durationOpt ratioOpt env

/-! ### Interleaved check-and-consume pairs (for the bounded-concurrency claim) -/

/-- One atomic step of a concurrent check+consume workload: pair i either runs
its checkAndReserveQuota (recording the verdict) or, if its check was allowed,
its 1-unit consumeQuota. Every step runs under the data lock in the source, so
an interleaving is a sequence of these steps. -/
inductive PairOp where
  | chk (i : Nat)
  | con (i : Nat)
  deriving DecidableEq

/-- State of such a workload run: the manager state, each pair's recorded check
verdict, and the total units actually deducted by the executed consumes. -/
structure PairRunState where
  um : UserManagerState
  results : List (Nat × Bool)
  consumedUnits : Int
  deriving DecidableEq

/-- Execute one step of the workload (each request is for 1 unit, as in the
bounded-concurrency scenario; the consume runs only for an allowed check, as in
the command flow at part_000 lines 1310-1319). -/
def pairStep (config : Config) (userId userName : String) (now : Nat)
    (s : PairRunState) (op : PairOp) : PairRunState :=
  match op with
  | .chk i =>
    let (um, r) := checkAndReserveQuota s.um config userId userName 1 none now
    { s with um := um, results := setV s.results i r.allowed }
  | .con i =>
    if (findV s.results i).getD false then
      let (um, r) := consumeQuota s.um config userId userName "图生图" 1 now
      { s with um := um, consumedUnits := s.consumedUnits + r.freeUsed + r.purchasedUsed }
    else s

/-- Run a whole interleaving. -/
def runPairOps (config : Config) (userId userName : String) (now : Nat)
    (s : PairRunState) (ops : List PairOp) : PairRunState :=
  ops.foldl (pairStep config userId userName now) s

/-- The Task-Gate-serialized interleaving: each check immediately followed by
its own consume. -/
def serialSchedule (n : Nat) : List PairOp :=
  ((List.range n).map (fun i => [PairOp.chk i, PairOp.con i])).flatten

/-! ### Operation sequences on one account (for the ledger invariants claim) -/

/-- One ledger mutation on a fixed account: a consumeQuota, a recordUsageOnly,
or one recharge-command credit, each at its own time. -/
inductive AccountOp where
  | consume (units : Int) (t : Nat)
  | record (units : Int) (t : Nat)
  | recharge (amount : Int) (t : Nat)
  deriving DecidableEq

/-- Apply one account operation. -/
def accountStep (config : Config) (userId userName commandName : String)
    (st : UserManagerState) : AccountOp → UserManagerState
  | .consume n t => (consumeQuota st config userId userName commandName n t).1
  | .record n t => (recordUsageOnly st userId userName commandName n t).1
  | .recharge a t => rechargeUser st userId a t

/-- Apply a whole sequence of account operations. -/
def runAccountOps (config : Config) (userId userName commandName : String)
    (st : UserManagerState) (ops : List AccountOp) : UserManagerState :=
  ops.foldl (accountStep config userId userName commandName) st

/-- The unit count an operation passes to consumeQuota or recordUsageOnly
(recharges pass none). -/
def opUnits : AccountOp → Int
  | .consume n _ => n
  | .record n _ => n
  | .recharge _ _ => 0

/-- The remaining purchased balance of an account (0 when not yet created). -/
def purchasedOf (st : UserManagerState) (userId : String) : Int :=
  match findV st.users userId with
  | some u => u.remainingPurchasedCount
  | none => 0

/-- The lifetime usage counter of an account (0 when not yet created). -/
def totalUsageOf (st : UserManagerState) (userId : String) : Int :=
  match findV st.users userId with
  | some u => u.totalUsageCount
  | none => 0

/-- The daily usage counter of an account (0 when not yet created). -/
def dailyUsageOf (st : UserManagerState) (userId : String) : Int :=
  match findV st.users userId with
  | some u => u.dailyUsageCount
  | none => 0

/-- The last daily-reset timestamp of an account (0 when not yet created). -/
def lastResetOf (st : UserManagerState) (userId : String) : Nat :=
  match findV st.users userId with
  | some u => u.lastDailyReset
  | none => 0

/-- The total currently available units of an account under a configuration:
the remaining free allowance for today plus the purchased balance, as computed
by checkAndReserveQuota on a day with no pending reset. -/
def availableOf (config : Config) (st : UserManagerState) (userId : String) : Int :=
  max 0 (config.dailyFreeLimit - dailyUsageOf st userId) + purchasedOf st userId

/-- The serialized schedule over an arbitrary index list. -/
def pairScheduleOf (idxs : List Nat) : List PairOp :=
  (idxs.map (fun i => [PairOp.chk i, PairOp.con i])).flatten

/-! ### Sequences of security blocks (for the escalation claim) -/

/-- Run recordSecurityBlock once per rejection timestamp, collecting results. -/
def runSecurityBlocks (st : UserManagerState) (config : Config) (userId : String) :
    List Nat → UserManagerState × List SecurityBlockResult
  | [] => (st, [])
  | t :: ts =>
    let (st, r) := recordSecurityBlock st config userId t
    let (st2, rs) := runSecurityBlocks st config userId ts
    (st2, r :: rs)

/-! ### Concrete instances used in the theorems and witnesses -/

/-- A representative configuration (defaults of part_000 lines 160-310). -/
def exampleConfig : Config :=
  { adminUsers := ["admin1"], unlimitedPlatforms := ["lark"], dailyFreeLimit := 5,
    rateLimitWindow := 60, rateLimitMax := 10, securityBlockWindow := 300,
    securityBlockWarningThreshold := 3, videoCreditsMultiplier := 5 }

/-- A timestamp on calendar day 10. -/
def exampleNow : Nat := 86400000 * 10 + 5000

/-- A timestamp on calendar day 9, the day before exampleNow. -/
def yesterdayTs : Nat := 86400000 * 9 + 100

/-- A fresh account created at exampleNow. -/
def aliceBase : UserData := newUserData "u1" "Alice" exampleNow

/-- The account of the end-to-end quota scenario: 2 purchased units remaining. -/
def alicePurchased2 : UserData :=
  { aliceBase with purchasedCount := 2, remainingPurchasedCount := 2 }

/-- State holding only alicePurchased2. -/
def statePurchased2 : UserManagerState :=
  { initialState with users := [("u1", alicePurchased2)] }

/-- The account of the daily-reset scenario: todays free allowance exhausted,
but the last reset happened on an earlier day. -/
def aliceStale (p : Int) (tOld : Nat) : UserData :=
  { aliceBase with
    dailyUsageCount := 5
    lastDailyReset := tOld
    purchasedCount := p
    remainingPurchasedCount := p }

/-- State holding only aliceStale. -/
def stateStale (p : Int) (tOld : Nat) : UserManagerState :=
  { initialState with users := [("u1", aliceStale p tOld)] }

/-- Configuration of the bounded-concurrency scenario: 2 free units per day. -/
def boundedConfig : Config :=
  { exampleConfig with dailyFreeLimit := 2, rateLimitMax := 100 }

/-- Account with 2 free + 1 purchased = 3 total available units. -/
def aliceAvail3 : UserData :=
  { aliceBase with purchasedCount := 1, remainingPurchasedCount := 1 }

/-- State holding only aliceAvail3. -/
def stateAvail3 : UserManagerState :=
  { initialState with users := [("u1", aliceAvail3)] }

/-- Four check-and-consume pairs interleaved with all four checks first. -/
def allChecksFirstSchedule : List PairOp :=
  [.chk 0, .chk 1, .chk 2, .chk 3, .con 0, .con 1, .con 2, .con 3]

/-- External behaviour in which input collection succeeds with one image and no
text, and the subsequent prompt-for-description send throws a transport error
(part_000 line 1343). -/
def leakEnv : VideoCmdEnv :=
  { input := .ok ["http://img"] none, sendDescribe := .throws,
    promptReply := .ok none, flowBody := .ok "" }

/-- A pending video task of user u1, not yet charged. -/
def videoTaskT1 : PendingVideoTask :=
  { taskId := "t1", userId := "u1", userName := "Alice", commandName := "图生视频",
    credits := 5, createdAt := exampleNow, charged := false, chargedAt := none }

/-- A second pending video task of the same user. -/
def videoTaskT2 : PendingVideoTask := { videoTaskT1 with taskId := "t2" }

/-- videoTaskT1 already charged. -/
def videoTaskT1Charged : PendingVideoTask :=
  { videoTaskT1 with charged := true, chargedAt := some exampleNow }

/-- State holding the uncharged pending task t1. -/
def statePendingT1 : UserManagerState :=
  { initialState with pendingTasks := [("t1", videoTaskT1)] }

/-- State holding the charged pending task t1. -/
def statePendingT1Charged : UserManagerState :=
  { initialState with pendingTasks := [("t1", videoTaskT1Charged)] }

/-! ### Supporting lemmas about the association-list maps -/

theorem findV_setV_self {κ α : Type} [DecidableEq κ] (l : List (κ × α)) (k : κ) (v : α) :
    findV (setV l k v) k = some v := by
  induction l with
  | nil => simp [setV, findV]
  | cons hd tl ih =>
    obtain ⟨k1, w⟩ := hd
    by_cases h : k1 = k <;> simp [setV, findV, h, ih]

theorem findV_setV_ne {κ α : Type} [DecidableEq κ] (l : List (κ × α)) (k k' : κ) (v : α)
    (h : k' ≠ k) : findV (setV l k v) k' = findV l k' := by
  have hk : ¬ k = k' := fun hh => h hh.symm
  induction l with
  | nil => simp [setV, findV, hk]
  | cons hd tl ih =>
    obtain ⟨k1, w⟩ := hd
    by_cases h1 : k1 = k
    · subst h1
      simp [setV, findV, hk]
    · simp only [setV, if_neg h1, findV]
      by_cases h2 : k1 = k' <;> simp [h2, ih]

theorem setV_setV {κ α : Type} [DecidableEq κ] (l : List (κ × α)) (k : κ) (v w : α) :
    setV (setV l k v) k w = setV l k w := by
  induction l with
  | nil => simp [setV]
  | cons hd tl ih =>
    obtain ⟨k1, x⟩ := hd
    by_cases h : k1 = k <;> simp [setV, h, ih]

theorem setV_of_findV_none {κ α : Type} [DecidableEq κ] (l : List (κ × α)) (k : κ) (v : α)
    (h : findV l k = none) : setV l k v = l ++ [(k, v)] := by
  induction l with
  | nil => simp [setV]
  | cons hd tl ih =>
    obtain ⟨k1, w⟩ := hd
    by_cases h1 : k1 = k
    · simp [findV, h1] at h
    · simp only [findV, if_neg h1] at h
      simp [setV, h1, ih h]

theorem findV_append {κ α : Type} [DecidableEq κ] (l1 l2 : List (κ × α)) (k : κ) :
    findV (l1 ++ l2) k =
      match findV l1 k with
      | some v => some v
      | none => findV l2 k := by
  induction l1 with
  | nil => simp [findV]
  | cons hd tl ih =>
    obtain ⟨k1, w⟩ := hd
    by_cases h : k1 = k <;> simp [findV, h, ih]

theorem delV_setV {κ α : Type} [DecidableEq κ] (l : List (κ × α)) (k : κ) (v : α) :
    delV (setV l k v) k = delV l k := by
  induction l with
  | nil => simp [setV, delV]
  | cons hd tl ih =>
    obtain ⟨k1, w⟩ := hd
    by_cases h : k1 = k <;> simp [setV, delV, h, ih]

theorem filter_length_delV {κ α : Type} [DecidableEq κ] (l : List (κ × α)) (k : κ) (t : α)
    (p : κ × α → Bool) (h : findV l k = some t) (hp : p (k, t) = true) :
    ((delV l k).filter p).length + 1 = (l.filter p).length := by
  induction l with
  | nil => simp [findV] at h
  | cons hd tl ih =>
    obtain ⟨k1, w⟩ := hd
    by_cases h1 : k1 = k
    · subst h1
      simp only [findV, if_pos rfl] at h
      rw [if_pos trivial] at h
      obtain rfl : w = t := Option.some.inj h
      simp [delV, List.filter_cons, hp]
    · simp only [findV, if_neg h1] at h
      simp only [delV, if_neg h1, List.filter_cons]
      have hih := ih h
      by_cases h2 : p (k1, w) <;> simp [h2] <;> omega


/-! ### The streaming-charge facts (claim C1) -/

/-- The streaming callback state after n completed deliveries: on the first
delivery the flag latches and exactly one charge of the provider-passed total
is recorded. -/
theorem processImageFold (req : Nat) (n : Nat) :
    (List.range n).foldl (fun s _ => onImageGenerated req s)
      { generatedImages := 0, creditDeducted := false, charges := [] } =
    if n = 0 then { generatedImages := 0, creditDeducted := false, charges := [] }
    else { generatedImages := n, creditDeducted := true, charges := [(req : Int)] } := by
  induction n with
  | zero => simp
  | succ n ih =>
    rw [List.range_succ, List.foldl_append, ih]
    by_cases hn : n = 0
    · subst hn
      simp [onImageGenerated]
    · simp [hn, onImageGenerated]

/-- Claim C1, counterexample: with 4 images requested, 1 result delivered and
the operation then failing, the committed charge is 4 units, not the delivered
count 1 — so it is false that the units charged equal the number of results
delivered before the operation ended. -/
theorem c1_charge_counterexample :
    (processImageStream 4 1 true 0).charges = [(4 : Int)]
    ∧ ¬ ((processImageStream 4 1 true 0).charges.length = 1
         ∧ (processImageStream 4 1 true 0).charges.sum = ((1 : Nat) : Int)) := by
  constructor
  · decide
  · decide

/-- Claim C1, amended: every streaming run commits at most one quota charge;
once at least one result is delivered, that single charge is committed and is
sized to the provider-reported total, which is the originally requested count
(not the delivered count), regardless of whether the operation later fails;
with zero deliveries a failed run charges nothing, a successful run with
returned images charges their count, and a successful empty run charges
nothing. -/
theorem c1_charge_amended (requested delivered : Nat) (failed : Bool) (returnedCount : Nat) :
    (processImageStream requested delivered failed returnedCount).charges.length ≤ 1
    ∧ (1 ≤ delivered →
        (processImageStream requested delivered failed returnedCount).charges
          = [(requested : Int)])
    ∧ (delivered = 0 → failed = true →
        (processImageStream requested delivered failed returnedCount).charges = [])
    ∧ (delivered = 0 → failed = false → 1 ≤ returnedCount →
        (processImageStream requested delivered failed returnedCount).charges
          = [(returnedCount : Int)])
    ∧ (delivered = 0 → failed = false → returnedCount = 0 →
        (processImageStream requested delivered failed returnedCount).charges = []) := by
  unfold processImageStream
  rw [processImageFold]
  by_cases hd : delivered = 0
  · subst hd
    cases failed
    · by_cases hr : returnedCount = 0 <;> simp [hr]
    · simp
  · cases failed <;> simp [hd]

/-- Witness for c1_charge_amended at concrete inputs. -/
theorem c1_charge_amended_witness :
    (processImageStream 4 1 true 0).charges = [(4 : Int)]
    ∧ (processImageStream 5 0 false 3).charges = [(3 : Int)] :=
  ⟨(c1_charge_amended 4 1 true 0).2.1 (by decide),
   (c1_charge_amended 5 0 false 3).2.2.2.1 rfl rfl (by decide)⟩

/-! ### Pending-task submission limit (claim C4) -/

/-- Helper: below the limit, a submission succeeds and the id is stored. -/
theorem addPending_below_limit (st : UserManagerState) (task : PendingVideoTask) (m : Nat)
    (hlt : countPendingVideoTasksForUser st task.userId < m) :
    (addPendingVideoTaskWithLimit st task m).2 = { success := true, message := none }
    ∧ (findV (addPendingVideoTaskWithLimit st task m).1.pendingTasks task.taskId).isSome := by
  have hnot : ¬ countPendingVideoTasksForUser st task.userId ≥ m := by omega
  by_cases hex : (findV st.pendingTasks task.taskId).isSome <;>
    simp [addPendingVideoTaskWithLimit, hnot, hex, findV_setV_self]

/-- Helper: marking a present uncharged task charged and then deleting it
removes exactly that binding from the pending table and nothing else. -/
theorem pending_mark_then_delete (st : UserManagerState) (tid : String) (now : Nat)
    (t : PendingVideoTask) (hfind : findV st.pendingTasks tid = some t)
    (hch : t.charged = false) :
    deletePendingVideoTask (markPendingVideoTaskCharged st tid now).1 tid =
      { st with pendingTasks := delV st.pendingTasks tid } := by
  simp [markPendingVideoTaskCharged, hfind, hch, deletePendingVideoTask,
    findV_setV_self, delV_setV]

/-- Claim C4: addPendingVideoTaskWithLimit fails, with the message naming the
current uncharged count and the limit, exactly when the submitting user already
has at least maxCount uncharged pending tasks; otherwise it succeeds and the
submitted id is stored (a fresh id is stored as the submitted task); and after
an outstanding uncharged task is charged and deleted, a submission for a user
who was at the limit succeeds again. -/
theorem c4_pending_limit (st : UserManagerState) (task : PendingVideoTask) (m : Nat)
    (tid : String) (t : PendingVideoTask) (now : Nat) :
    (countPendingVideoTasksForUser st task.userId ≥ m →
      addPendingVideoTaskWithLimit st task m =
        (st, { success := false,
               message := some (pendingLimitMessage
                 (countPendingVideoTasksForUser st task.userId) m) }))
    ∧ (countPendingVideoTasksForUser st task.userId < m →
        (addPendingVideoTaskWithLimit st task m).2 = { success := true, message := none }
        ∧ (findV (addPendingVideoTaskWithLimit st task m).1.pendingTasks task.taskId).isSome
        ∧ (findV st.pendingTasks task.taskId = none →
            findV (addPendingVideoTaskWithLimit st task m).1.pendingTasks task.taskId
              = some task))
    ∧ (findV st.pendingTasks tid = some t → t.userId = task.userId → t.charged = false →
        countPendingVideoTasksForUser st task.userId ≤ m →
        (addPendingVideoTaskWithLimit
            (deletePendingVideoTask (markPendingVideoTaskCharged st tid now).1 tid)
            task m).2.success = true) := by
  refine ⟨?_, ?_, ?_⟩
  · intro hge
    simp [addPendingVideoTaskWithLimit, hge]
  · intro hlt
    have hnot : ¬ countPendingVideoTasksForUser st task.userId ≥ m := by omega
    by_cases hex : (findV st.pendingTasks task.taskId).isSome
    · refine ⟨by simp [addPendingVideoTaskWithLimit, hnot, hex], ?_, ?_⟩
      · simp [addPendingVideoTaskWithLimit, hnot, hex]
      · intro hnone
        rw [hnone] at hex
        simp at hex
    · refine ⟨by simp [addPendingVideoTaskWithLimit, hnot, hex], ?_, ?_⟩
      · simp [addPendingVideoTaskWithLimit, hnot, hex, findV_setV_self]
      · intro _
        simp [addPendingVideoTaskWithLimit, hnot, hex, findV_setV_self]
  · intro hfind huser hcharged hle
    rw [pending_mark_then_delete st tid now t hfind hcharged]
    have hcount : countPendingVideoTasksForUser
        { st with pendingTasks := delV st.pendingTasks tid } task.userId + 1 =
        countPendingVideoTasksForUser st task.userId := by
      unfold countPendingVideoTasksForUser
      exact filter_length_delV st.pendingTasks tid t _ hfind (by simp [huser, hcharged])
    have hlt2 : countPendingVideoTasksForUser
        { st with pendingTasks := delV st.pendingTasks tid } task.userId < m := by omega
    have hres := (addPending_below_limit
      { st with pendingTasks := delV st.pendingTasks tid } task m hlt2).1
    rw [hres]

/-- Witness for c4_pending_limit: with max 1, a second submission for u1 is
rejected with the message naming count 1 and max 1; a fresh submission into an
empty table succeeds and is stored; after t1 is charged and deleted, the second
submission succeeds. -/
theorem c4_pending_limit_witness :
    addPendingVideoTaskWithLimit statePendingT1 videoTaskT2 1 =
      (statePendingT1, { success := false, message := some (pendingLimitMessage 1 1) })
    ∧ (addPendingVideoTaskWithLimit initialState videoTaskT1 1).2
        = { success := true, message := none }
    ∧ (addPendingVideoTaskWithLimit
          (deletePendingVideoTask
            (markPendingVideoTaskCharged statePendingT1 "t1" exampleNow).1 "t1")
          videoTaskT2 1).2.success = true := by
  refine ⟨?_, ?_, ?_⟩
  · exact (c4_pending_limit statePendingT1 videoTaskT2 1 "t1" videoTaskT1 exampleNow).1
      (by decide)
  · exact ((c4_pending_limit initialState videoTaskT1 1 "t1" videoTaskT1 exampleNow).2.1
      (by decide)).1
  · exact (c4_pending_limit statePendingT1 videoTaskT2 1 "t1" videoTaskT1 exampleNow).2.2
      (by decide) (by decide) (by decide) (by decide)

/-! ### Idempotence of charge marking and deletion (claim C5) -/

/-- Claim C5: markPendingVideoTaskCharged on an already-charged task returns
the task and leaves the whole state unchanged, and deletePendingVideoTask on
an absent id leaves the whole state unchanged. -/
theorem c5_mark_delete_idempotent (st : UserManagerState) (tid : String) (now : Nat)
    (t : PendingVideoTask) :
    (findV st.pendingTasks tid = some t → t.charged = true →
      markPendingVideoTaskCharged st tid now = (st, some t))
    ∧ (findV st.pendingTasks tid = none → deletePendingVideoTask st tid = st) := by
  constructor
  · intro h hc
    simp [markPendingVideoTaskCharged, h, hc]
  · intro h
    simp [deletePendingVideoTask, h]

/-- Witness for c5_mark_delete_idempotent on a concrete charged task and a
concrete absent id. -/
theorem c5_mark_delete_idempotent_witness :
    markPendingVideoTaskCharged statePendingT1Charged "t1" exampleNow
      = (statePendingT1Charged, some videoTaskT1Charged)
    ∧ deletePendingVideoTask statePendingT1Charged "t9" = statePendingT1Charged :=
  ⟨(c5_mark_delete_idempotent statePendingT1Charged "t1" exampleNow videoTaskT1Charged).1
      (by decide) (by decide),
   (c5_mark_delete_idempotent statePendingT1Charged "t9" exampleNow videoTaskT1Charged).2
      (by decide)⟩

/-! ### End-to-end quota arithmetic (claim C7) -/

/-- Claim C7: with a daily free limit of 5, no usage today and 2 purchased
units, an 8-unit check is denied with the message stating free 5, purchased 2,
total 7; a subsequent 6-unit check is allowed, and consuming 6 units reports
freeUsed 5, purchasedUsed 1 and a mixed consumption type. -/
theorem c7_end_to_end :
    (checkAndReserveQuota statePurchased2 exampleConfig "u1" "Alice" 8 none
        exampleNow).2.allowed = false
    ∧ (checkAndReserveQuota statePurchased2 exampleConfig "u1" "Alice" 8 none
        exampleNow).2.message =
        some ("生成 8 张图片需要 8 次可用次数，但您的可用次数不足" ++
          "（今日免费剩余：5次，充值剩余：2次，共7次）")
    ∧ (checkAndReserveQuota
        (checkAndReserveQuota statePurchased2 exampleConfig "u1" "Alice" 8 none exampleNow).1
        exampleConfig "u1" "Alice" 6 none exampleNow).2.allowed = true
    ∧ (consumeQuota
        (checkAndReserveQuota
          (checkAndReserveQuota statePurchased2 exampleConfig "u1" "Alice" 8 none
            exampleNow).1
          exampleConfig "u1" "Alice" 6 none exampleNow).1
        exampleConfig "u1" "Alice" "图生图" 6 exampleNow).2.freeUsed = 5
    ∧ (consumeQuota
        (checkAndReserveQuota
          (checkAndReserveQuota statePurchased2 exampleConfig "u1" "Alice" 8 none
            exampleNow).1
          exampleConfig "u1" "Alice" 6 none exampleNow).1
        exampleConfig "u1" "Alice" "图生图" 6 exampleNow).2.purchasedUsed = 1
    ∧ (consumeQuota
        (checkAndReserveQuota
          (checkAndReserveQuota statePurchased2 exampleConfig "u1" "Alice" 8 none
            exampleNow).1
          exampleConfig "u1" "Alice" 6 none exampleNow).1
        exampleConfig "u1" "Alice" "图生图" 6 exampleNow).2.consumptionType
        = ConsumptionType.mixed := by
  refine ⟨?_, ?_, ?_, ?_, ?_, ?_⟩ <;> decide

/-! ### Video-command lock leak (claim C6) -/

/-- Claim C6 fails on the code: when the prompt-for-description send throws
after the video task lock was acquired (part_000 lines 1322, 1343), the
图生视频 action terminates exceptionally with the lock still held, so a
subsequent startVideoTask for the same user returns false. -/
theorem c6_video_lock_leaked :
    (videoCommandAction statePurchased2 exampleConfig "u1" "Alice" none none none
        leakEnv exampleNow).2 = ExtCall.throws
    ∧ isVideoTaskActive
        (videoCommandAction statePurchased2 exampleConfig "u1" "Alice" none none none
          leakEnv exampleNow).1 "u1" = true
    ∧ (startVideoTask
        (videoCommandAction statePurchased2 exampleConfig "u1" "Alice" none none none
          leakEnv exampleNow).1 "u1").2 = false := by
  refine ⟨?_, ?_, ?_⟩ <;> decide

/-! ### Admin and empty-id exemption of the security tracker (claim C10) -/

/-- Claim C10: recordSecurityBlock for an admin userId or for the empty userId
returns all-false with blockCount 0 and leaves the entire state, in particular
the rejection window and the warned latch, unchanged. -/
theorem c10_security_exempt (st : UserManagerState) (config : Config) (userId : String)
    (now : Nat) (h : userId ∈ config.adminUsers ∨ userId = "") :
    recordSecurityBlock st config userId now =
      (st, { shouldWarn := false, shouldDeduct := false, blockCount := 0 }) := by
  rcases h with h | h
  · by_cases he : userId = ""
    · simp [recordSecurityBlock, he]
    · have ha : isAdmin userId config = true := by
        simp [isAdmin, h]
      simp [recordSecurityBlock, he, ha]
  · simp [recordSecurityBlock, h]

/-- Witness for c10_security_exempt: the configured admin and the empty id. -/
theorem c10_security_exempt_witness :
    recordSecurityBlock statePurchased2 exampleConfig "admin1" exampleNow =
      (statePurchased2, { shouldWarn := false, shouldDeduct := false, blockCount := 0 })
    ∧ recordSecurityBlock statePurchased2 exampleConfig "" exampleNow =
      (statePurchased2, { shouldWarn := false, shouldDeduct := false, blockCount := 0 }) :=
  ⟨c10_security_exempt statePurchased2 exampleConfig "admin1" exampleNow
      (Or.inl (by decide)),
   c10_security_exempt statePurchased2 exampleConfig "" exampleNow (Or.inr rfl)⟩

/-! ### Advisory check and lazy daily reset (claim C8) -/

/-- Claim C8: for an existing non-admin, non-exempt account with
dailyUsageCount = dailyFreeLimit = 5 whose lastDailyReset lies on an earlier
day and any non-negative purchased balance, checkAndReserveQuota for 1 unit is
allowed and leaves the account table untouched (persistence is the table in
this embedding); the subsequent consumeQuota applies and persists the daily
reset, reporting freeUsed 1, purchasedUsed 0 and storing dailyUsageCount 1,
lastDailyReset now, and an unchanged purchased balance. -/
theorem c8_lazy_reset (p : Int) (tOld : Nat) (hp : 0 ≤ p)
    (hd : dayOf tOld < dayOf exampleNow) :
    (checkAndReserveQuota (stateStale p tOld) exampleConfig "u1" "Alice" 1 none
        exampleNow).2.allowed = true
    ∧ (checkAndReserveQuota (stateStale p tOld) exampleConfig "u1" "Alice" 1 none
        exampleNow).1.users = (stateStale p tOld).users
    ∧ (consumeQuota
        (checkAndReserveQuota (stateStale p tOld) exampleConfig "u1" "Alice" 1 none
          exampleNow).1
        exampleConfig "u1" "Alice" "图生图" 1 exampleNow).2.freeUsed = 1
    ∧ (consumeQuota
        (checkAndReserveQuota (stateStale p tOld) exampleConfig "u1" "Alice" 1 none
          exampleNow).1
        exampleConfig "u1" "Alice" "图生图" 1 exampleNow).2.purchasedUsed = 0
    ∧ ((findV (consumeQuota
          (checkAndReserveQuota (stateStale p tOld) exampleConfig "u1" "Alice" 1 none
            exampleNow).1
          exampleConfig "u1" "Alice" "图生图" 1 exampleNow).1.users "u1").getD
        aliceBase).dailyUsageCount = 1
    ∧ ((findV (consumeQuota
          (checkAndReserveQuota (stateStale p tOld) exampleConfig "u1" "Alice" 1 none
            exampleNow).1
          exampleConfig "u1" "Alice" "图生图" 1 exampleNow).1.users "u1").getD
        aliceBase).lastDailyReset = exampleNow
    ∧ ((findV (consumeQuota
          (checkAndReserveQuota (stateStale p tOld) exampleConfig "u1" "Alice" 1 none
            exampleNow).1
          exampleConfig "u1" "Alice" "图生图" 1 exampleNow).1.users "u1").getD
        aliceBase).remainingPurchasedCount = p := by
  have hdd : dayOf tOld < 10 := by
    simpa [dayOf, msPerDay, exampleNow] using hd
  have hne : ¬ ((10 : Nat) = tOld / 86400000) := by
    simp only [dayOf, msPerDay] at hdd; omega
  have hav : ¬ ((5 : Int) + p < 1) := by omega
  have hck : (checkAndReserveQuota (stateStale p tOld) exampleConfig "u1" "Alice" 1 none
        exampleNow).2.allowed = true
      ∧ (checkAndReserveQuota (stateStale p tOld) exampleConfig "u1" "Alice" 1 none
        exampleNow).1.users = (stateStale p tOld).users := by
    simp [checkAndReserveQuota, checkRateLimit, updateRateLimit, getUserData,
      stateStale, initialState, findV, setV, isAdmin, exampleConfig,
      aliceStale, aliceBase, newUserData, exampleNow, dayOf, msPerDay, hne, hav]
  refine ⟨hck.1, hck.2, ?_, ?_, ?_, ?_, ?_⟩ <;>
    (simp only [consumeQuota]
     rw [hck.2]
     simp [stateStale, initialState, findV, setV, exampleConfig,
       aliceStale, aliceBase, newUserData, exampleNow, dayOf, msPerDay, hne, hp,
       findV_setV_self])

/-- Witness for c8_lazy_reset at purchased balance 2 and a reset on day 9. -/
theorem c8_lazy_reset_witness :
    (checkAndReserveQuota (stateStale 2 yesterdayTs) exampleConfig "u1" "Alice" 1 none
        exampleNow).2.allowed = true
    ∧ ((findV (consumeQuota
          (checkAndReserveQuota (stateStale 2 yesterdayTs) exampleConfig "u1" "Alice" 1 none
            exampleNow).1
          exampleConfig "u1" "Alice" "图生图" 1 exampleNow).1.users "u1").getD
        aliceBase).dailyUsageCount = 1 :=
  ⟨(c8_lazy_reset 2 yesterdayTs (by decide) (by decide)).1,
   (c8_lazy_reset 2 yesterdayTs (by decide) (by decide)).2.2.2.2.1⟩

/-! ### Security-block escalation (claim C9) -/

/-- Characterization of a run of recordSecurityBlock calls for a non-admin,
non-empty user: when every rejection (including those already in the window)
falls within the sliding window of every later one, the j-th call reports
blockCount done+j+1, warns exactly when that count first reaches the
threshold, and deducts exactly when it exceeds the threshold. -/
theorem security_run_characterize
    (config : Config) (userId : String)
    (hid : ¬ userId = "") (hadmin : isAdmin userId config = false) :
    ∀ (ts done : List Nat) (st : UserManagerState),
    (findV st.securityBlockMap userId).getD [] = done →
    (findV st.securityWarningMap userId).getD false =
      decide (config.securityBlockWarningThreshold ≤ done.length) →
    (done ++ ts).Pairwise
      (fun (a b : Nat) => (b : Int) - (a : Int) < (config.securityBlockWindow : Int) * 1000) →
    (runSecurityBlocks st config userId ts).2 =
      (List.range ts.length).map (fun j =>
        { shouldWarn := decide (done.length + j + 1 = config.securityBlockWarningThreshold)
          shouldDeduct := decide (config.securityBlockWarningThreshold < done.length + j + 1)
          blockCount := done.length + j + 1 }) := by
  intro ts
  induction ts with
  | nil => intro done st hmap hlatch hpw; simp [runSecurityBlocks]
  | cons t ts ih =>
    intro done st hmap hlatch hpw
    have hall : ∀ d ∈ done, ((t : Int) - (d : Int) < (config.securityBlockWindow : Int) * 1000) := by
      rw [List.pairwise_append] at hpw
      intro d hdin
      exact hpw.2.2 d hdin t (by simp)
    have hfilter : (done.filter
        (fun (x : Nat) => decide ((x : Int) > (t : Int) - (config.securityBlockWindow : Int) * 1000))) = done := by
      rw [List.filter_eq_self]
      intro d hdin
      have := hall d hdin
      simp only [decide_eq_true_eq]
      omega
    have hpw2 : ((done ++ [t]) ++ ts).Pairwise
        (fun (a b : Nat) => (b : Int) - (a : Int) < (config.securityBlockWindow : Int) * 1000) := by
      simpa [List.append_assoc] using hpw
    have hrec : recordSecurityBlock st config userId t =
        (if done.length + 1 = config.securityBlockWarningThreshold then
          { st with
            securityBlockMap := setV st.securityBlockMap userId (done ++ [t])
            securityWarningMap := setV st.securityWarningMap userId true }
         else
          { st with securityBlockMap := setV st.securityBlockMap userId (done ++ [t]) },
         { shouldWarn := decide (done.length + 1 = config.securityBlockWarningThreshold)
           shouldDeduct := decide (config.securityBlockWarningThreshold < done.length + 1)
           blockCount := done.length + 1 }) := by
      unfold recordSecurityBlock
      rw [if_neg hid, if_neg (by simp [hadmin])]
      simp only [hmap, hfilter, hlatch]
      by_cases hc1 : config.securityBlockWarningThreshold ≤ done.length
      · have h1 : ¬ (done.length + 1 = config.securityBlockWarningThreshold) := by omega
        have h2 : config.securityBlockWarningThreshold < done.length + 1 := by omega
        simp [hc1, h1, h2]
      · by_cases hc2 : done.length + 1 = config.securityBlockWarningThreshold
        · have h2 : ¬ (config.securityBlockWarningThreshold < done.length + 1) := by omega
          have h3 : config.securityBlockWarningThreshold ≤ (done ++ [t]).length := by
            simp; omega
          simp [hc1, hc2, h2, h3]
        · have h2 : ¬ (config.securityBlockWarningThreshold < done.length + 1) := by omega
          have h3 : ¬ (config.securityBlockWarningThreshold ≤ (done ++ [t]).length) := by
            simp; omega
          have h4 : ¬ (config.securityBlockWarningThreshold ≤ done.length + 1) := by omega
          simp [hc1, hc2, h2, h3, h4]
    simp only [runSecurityBlocks, hrec]
    by_cases hc2 : done.length + 1 = config.securityBlockWarningThreshold
    · rw [if_pos hc2]
      have htail := ih (done ++ [t])
        { st with
          securityBlockMap := setV st.securityBlockMap userId (done ++ [t])
          securityWarningMap := setV st.securityWarningMap userId true }
        (by simp [findV_setV_self]) (by simp [findV_setV_self]; omega) hpw2
      simp only [List.length_cons, List.range_succ_eq_map, List.map_cons, List.map_map]
      rw [htail]
      simp only [List.cons.injEq]
      refine ⟨by simp, ?_⟩
      apply List.map_congr_left
      intro a ha
      simp only [List.length_append, List.length_singleton, SecurityBlockResult.mk.injEq,
        decide_eq_decide, Function.comp_apply]
      refine ⟨by omega, by omega, by omega⟩
    · rw [if_neg hc2]
      have htail := ih (done ++ [t])
        { st with securityBlockMap := setV st.securityBlockMap userId (done ++ [t]) }
        (by simp [findV_setV_self]) (by simp [findV_setV_self, hlatch]; omega) hpw2
      simp only [List.length_cons, List.range_succ_eq_map, List.map_cons, List.map_map]
      rw [htail]
      simp only [List.cons.injEq]
      refine ⟨by simp, ?_⟩
      apply List.map_congr_left
      intro a ha
      simp only [List.length_append, List.length_singleton, SecurityBlockResult.mk.injEq,
        decide_eq_decide, Function.comp_apply]
      refine ⟨by omega, by omega, by omega⟩

/-- Claim C9: starting from a fresh tracker, for rejections all inside one
sliding window, with warning threshold 3, the call for rejection j (0-based)
returns shouldWarn exactly when j = 2 (the 3rd rejection, hence at most once),
and returns shouldDeduct exactly when j ≥ 3 (the 4th, 5th, ... rejections). -/
theorem c9_escalation (config : Config) (userId : String) (ts : List Nat)
    (hid : ¬ userId = "") (hadmin : isAdmin userId config = false)
    (hthr : config.securityBlockWarningThreshold = 3)
    (hpw : ts.Pairwise
      (fun (a b : Nat) => (b : Int) - (a : Int) < (config.securityBlockWindow : Int) * 1000)) :
    ∀ (j : Nat), j < ts.length →
      ((((runSecurityBlocks initialState config userId ts).2.getD j
          { shouldWarn := false, shouldDeduct := false, blockCount := 0 }).shouldWarn = true
        ↔ j = 2)
      ∧ ((((runSecurityBlocks initialState config userId ts).2.getD j
          { shouldWarn := false, shouldDeduct := false, blockCount := 0 }).shouldDeduct = true
        ↔ 3 ≤ j))) := by
  intro j hj
  have hchar := security_run_characterize config userId hid hadmin ts [] initialState
    rfl (by simp [initialState, findV, hthr]) (by simpa using hpw)
  rw [hchar]
  simp [List.getD_eq_getElem?_getD, List.getElem?_map, List.getElem?_range, hj, hthr]
  omega

/-- Witness for c9_escalation: four rejections within one 300-second window. -/
theorem c9_escalation_witness :
    (((runSecurityBlocks initialState exampleConfig "u1" [1000, 2000, 3000, 4000]).2.getD 2
        { shouldWarn := false, shouldDeduct := false, blockCount := 0 }).shouldWarn = true)
    ∧ (((runSecurityBlocks initialState exampleConfig "u1" [1000, 2000, 3000, 4000]).2.getD 3
        { shouldWarn := false, shouldDeduct := false, blockCount := 0 }).shouldDeduct = true) :=
  ⟨(c9_escalation exampleConfig "u1" [1000, 2000, 3000, 4000] (by decide) (by decide) rfl
      (by decide) 2 (by decide)).1.mpr rfl,
   (c9_escalation exampleConfig "u1" [1000, 2000, 3000, 4000] (by decide) (by decide) rfl
      (by decide) 3 (by decide)).2.mpr (by decide)⟩


/-! ### Ledger invariants over operation sequences (claim C3) -/

/-- One consumeQuota step keeps the purchased balance non-negative and adds
exactly its unit count to totalUsageCount. -/
theorem consumeQuota_balances (st : UserManagerState) (config : Config)
    (userId userName commandName : String) (n : Int) (now : Nat)
    (h0 : 0 ≤ purchasedOf st userId) :
    0 ≤ purchasedOf (consumeQuota st config userId userName commandName n now).1 userId
    ∧ totalUsageOf (consumeQuota st config userId userName commandName n now).1 userId
      = totalUsageOf st userId + n := by
  cases hfind : findV st.users userId with
  | some u =>
    simp only [purchasedOf, totalUsageOf, hfind] at h0 ⊢
    simp only [consumeQuota, hfind]
    simp only [findV_setV_self]
    split_ifs
    all_goals simp
    all_goals omega
  | none =>
    simp only [purchasedOf, totalUsageOf, hfind] at h0 ⊢
    simp only [consumeQuota, hfind]
    simp only [findV_setV_self]
    split_ifs
    all_goals simp [newUserData]

/-- One recordUsageOnly step keeps the purchased balance non-negative and adds
exactly its unit count to totalUsageCount. -/
theorem recordUsageOnly_balances (st : UserManagerState)
    (userId userName commandName : String) (n : Int) (now : Nat)
    (h0 : 0 ≤ purchasedOf st userId) :
    0 ≤ purchasedOf (recordUsageOnly st userId userName commandName n now).1 userId
    ∧ totalUsageOf (recordUsageOnly st userId userName commandName n now).1 userId
      = totalUsageOf st userId + n := by
  cases hfind : findV st.users userId with
  | some u =>
    simp only [purchasedOf, totalUsageOf, hfind] at h0 ⊢
    simp [recordUsageOnly, hfind, findV_setV_self, h0]
  | none =>
    simp only [purchasedOf, totalUsageOf, hfind] at h0 ⊢
    simp [recordUsageOnly, hfind, findV_setV_self, newUserData]

/-- One recharge credit with a positive validated amount keeps the purchased
balance non-negative and leaves totalUsageCount unchanged. -/
theorem rechargeUser_balances (st : UserManagerState) (userId : String) (a : Int) (now : Nat)
    (h0 : 0 ≤ purchasedOf st userId) (ha : 0 < a) :
    0 ≤ purchasedOf (rechargeUser st userId a now) userId
    ∧ totalUsageOf (rechargeUser st userId a now) userId = totalUsageOf st userId := by
  cases hfind : findV st.users userId with
  | some u =>
    simp only [purchasedOf, totalUsageOf, hfind] at h0 ⊢
    constructor
    · simp [rechargeUser, hfind, findV_setV_self]; omega
    · simp [rechargeUser, hfind, findV_setV_self]
  | none =>
    simp only [purchasedOf, totalUsageOf, hfind] at h0 ⊢
    constructor
    · simp [rechargeUser, hfind, findV_setV_self, newUserData]; omega
    · simp [rechargeUser, hfind, findV_setV_self, newUserData]

/-- Claim C3: over every sequence of consumeQuota, recordUsageOnly and
recharge operations on one account (each recharge amount positive, as the
recharge command validates), remainingPurchasedCount never becomes negative
and totalUsageCount ends at its initial value plus the sum of all unit counts
passed to consumeQuota and recordUsageOnly. -/
theorem c3_ledger_invariants (config : Config) (userId userName commandName : String)
    (ops : List AccountOp) (st : UserManagerState)
    (h0 : 0 ≤ purchasedOf st userId)
    (hpos : ∀ a t, AccountOp.recharge a t ∈ ops → 0 < a) :
    0 ≤ purchasedOf (runAccountOps config userId userName commandName st ops) userId
    ∧ totalUsageOf (runAccountOps config userId userName commandName st ops) userId
      = totalUsageOf st userId + (ops.map opUnits).sum := by
  induction ops generalizing st with
  | nil => simpa [runAccountOps] using h0
  | cons op ops ih =>
    have hstep : runAccountOps config userId userName commandName st (op :: ops) =
        runAccountOps config userId userName commandName
          (accountStep config userId userName commandName st op) ops := by
      simp [runAccountOps]
    rw [hstep]
    cases op with
    | consume n t =>
      have hc := consumeQuota_balances st config userId userName commandName n t h0
      have hih := ih _ hc.1 (fun a t2 hmem => hpos a t2 (List.mem_cons_of_mem _ hmem))
      refine ⟨hih.1, ?_⟩
      simp only [accountStep, List.map_cons, List.sum_cons, opUnits]
      rw [hih.2, hc.2]
      ring
    | record n t =>
      have hc := recordUsageOnly_balances st userId userName commandName n t h0
      have hih := ih _ hc.1 (fun a t2 hmem => hpos a t2 (List.mem_cons_of_mem _ hmem))
      refine ⟨hih.1, ?_⟩
      simp only [accountStep, List.map_cons, List.sum_cons, opUnits]
      rw [hih.2, hc.2]
      ring
    | recharge a t =>
      have ha : 0 < a := hpos a t (List.mem_cons_self _ _)
      have hc := rechargeUser_balances st userId a t h0 ha
      have hih := ih _ hc.1 (fun a2 t2 hmem => hpos a2 t2 (List.mem_cons_of_mem _ hmem))
      refine ⟨hih.1, ?_⟩
      simp only [accountStep, List.map_cons, List.sum_cons, opUnits]
      rw [hih.2, hc.2]
      ring


/-- Witness for c3_ledger_invariants on a concrete three-operation sequence. -/
theorem c3_ledger_invariants_witness :
    0 ≤ purchasedOf (runAccountOps exampleConfig "u1" "Alice" "图生图" statePurchased2
        [AccountOp.consume 3 exampleNow, AccountOp.recharge 5 exampleNow,
         AccountOp.record 2 exampleNow]) "u1"
    ∧ totalUsageOf (runAccountOps exampleConfig "u1" "Alice" "图生图" statePurchased2
        [AccountOp.consume 3 exampleNow, AccountOp.recharge 5 exampleNow,
         AccountOp.record 2 exampleNow]) "u1"
      = totalUsageOf statePurchased2 "u1"
        + (List.map opUnits [AccountOp.consume 3 exampleNow, AccountOp.recharge 5 exampleNow,
            AccountOp.record 2 exampleNow]).sum :=
  c3_ledger_invariants exampleConfig "u1" "Alice" "图生图"
    [AccountOp.consume 3 exampleNow, AccountOp.recharge 5 exampleNow,
     AccountOp.record 2 exampleNow] statePurchased2 (by decide)
    (by intro a t h; simp at h; omega)

/-! ### Bounded concurrency of check-and-consume pairs (claim C2) -/

/-- Claim C2, counterexample: with 3 available units and 4 check-and-consume
pairs interleaved with all four checks first, all 4 checks are allowed — so it
is false that exactly 3 pairs succeed in every interleaving (the advisory
check reserves nothing). -/
theorem c2_counterexample :
    (runPairOps boundedConfig "u1" "Alice" exampleNow
      { um := stateAvail3, results := [], consumedUnits := 0 }
      allChecksFirstSchedule).results.countP (fun e => e.2) = 4
    ∧ ¬ ((runPairOps boundedConfig "u1" "Alice" exampleNow
      { um := stateAvail3, results := [], consumedUnits := 0 }
      allChecksFirstSchedule).results.countP (fun e => e.2) = 3) := by
  constructor
  · decide
  · decide

/-- checkAndReserveQuota never mutates an existing account entry. -/
theorem checkAndReserveQuota_users_frame (st : UserManagerState) (config : Config)
    (userId userName : String) (n : Int) (platform : Option String) (now : Nat)
    (u : UserData) (hu : findV st.users userId = some u) :
    (checkAndReserveQuota st config userId userName n platform now).1.users = st.users := by
  simp only [checkAndReserveQuota, checkRateLimit, updateRateLimit, getUserData, hu]
  split_ifs <;> simp [hu]

/-- One 1-unit consumeQuota on an existing same-day account: the rate map is
untouched, the account stays present with the same reset day and a
non-negative balance, the available total drops by exactly min(available, 1),
and freeUsed + purchasedUsed equals that drop. -/
theorem consumeQuota_one_unit (st : UserManagerState) (config : Config)
    (userId userName commandName : String) (now : Nat) (u : UserData)
    (hu : findV st.users userId = some u)
    (hday : dayOf u.lastDailyReset = dayOf now)
    (hp : 0 ≤ u.remainingPurchasedCount) :
    (consumeQuota st config userId userName commandName 1 now).1.rateLimitMap
      = st.rateLimitMap
    ∧ (∃ u2, findV (consumeQuota st config userId userName commandName 1 now).1.users userId
        = some u2
        ∧ u2.lastDailyReset = u.lastDailyReset
        ∧ 0 ≤ u2.remainingPurchasedCount
        ∧ max 0 (config.dailyFreeLimit - u2.dailyUsageCount) + u2.remainingPurchasedCount
          = availableOf config st userId - min (availableOf config st userId) 1)
    ∧ (consumeQuota st config userId userName commandName 1 now).2.freeUsed
        + (consumeQuota st config userId userName commandName 1 now).2.purchasedUsed
      = min (availableOf config st userId) 1 := by
  have hne : ¬ (dayOf now ≠ dayOf u.lastDailyReset) := by omega
  simp only [consumeQuota, hu]
  simp [hne, availableOf, dailyUsageOf, purchasedOf, hu, findV_setV_self]
  split_ifs <;> omega

/-- Filtering a replicated list by a predicate the element satisfies keeps it. -/
theorem filter_replicate_keep (k : Nat) (a : Nat) (p : Nat → Bool) (hp : p a = true) :
    (List.replicate k a).filter p = List.replicate k a := by
  induction k with
  | zero => simp
  | succ k ih => simp [List.replicate_succ, List.filter_cons, hp, ih]

/-- One 1-unit checkAndReserveQuota for a non-admin user below the rate limit:
it only appends the admission timestamp to the rate window, and is allowed
exactly when at least one unit is available. -/
theorem checkAndReserveQuota_one_unit (st : UserManagerState) (config : Config)
    (userId userName : String) (now : Nat) (u : UserData) (k : Nat)
    (hadmin : isAdmin userId config = false)
    (hu : findV st.users userId = some u)
    (hday : dayOf u.lastDailyReset = dayOf now)
    (hrate : (findV st.rateLimitMap userId).getD [] = List.replicate k now)
    (hk : k < config.rateLimitMax)
    (hwin : 1 ≤ config.rateLimitWindow) :
    (checkAndReserveQuota st config userId userName 1 none now).1
      = { st with rateLimitMap := setV st.rateLimitMap userId (List.replicate (k + 1) now) }
    ∧ ((checkAndReserveQuota st config userId userName 1 none now).2.allowed = true
        ↔ 1 ≤ availableOf config st userId) := by
  have hfil : (List.replicate k now).filter
      (fun (t : Nat) => decide ((t : Int) > (now : Int) - (config.rateLimitWindow : Int) * 1000))
      = List.replicate k now := by
    apply filter_replicate_keep
    simp only [decide_eq_true_eq]
    have : (1 : Int) ≤ (config.rateLimitWindow : Int) := by exact_mod_cast hwin
    omega
  have hne : ¬ (dayOf now ≠ dayOf u.lastDailyReset) := by omega
  have hlen : ¬ ((List.replicate k now).length ≥ config.rateLimitMax) := by
    simp [List.length_replicate]; omega
  have hrep : List.replicate k now ++ [now] = List.replicate (k + 1) now := by
    rw [← List.replicate_succ']
  simp only [checkAndReserveQuota, checkRateLimit, updateRateLimit, getUserData, hadmin,
    hrate, hfil, hu]
  have hk2 : ¬ (config.rateLimitMax ≤ k) := by omega
  simp [hlen, hk2, findV_setV_self, setV_setV, hrep, hne, availableOf, dailyUsageOf,
    purchasedOf, hu]
  constructor
  · split_ifs <;> rfl
  · split_ifs with h
    · simp
      omega
    · simp
      omega

/-- In every interleaving of checks and consumes for one same-day account, the
units actually deducted never exceed the initially available total. -/
theorem runPairs_consumed_bound (config : Config) (userId userName : String) (now : Nat) :
    ∀ (ops : List PairOp) (s : PairRunState) (u : UserData),
    findV s.um.users userId = some u →
    dayOf u.lastDailyReset = dayOf now →
    0 ≤ u.remainingPurchasedCount →
    (runPairOps config userId userName now s ops).consumedUnits
      ≤ s.consumedUnits + availableOf config s.um userId := by
  intro ops
  induction ops with
  | nil =>
    intro s u hu hday hp
    simp only [runPairOps, List.foldl_nil]
    have : 0 ≤ availableOf config s.um userId := by
      simp only [availableOf, dailyUsageOf, purchasedOf, hu]
      omega
    omega
  | cons op ops ih =>
    intro s u hu hday hp
    rw [show runPairOps config userId userName now s (op :: ops)
        = runPairOps config userId userName now
            (pairStep config userId userName now s op) ops from rfl]
    cases op with
    | chk i =>
      have hframe := checkAndReserveQuota_users_frame s.um config userId userName 1 none now
        u hu
      have hu2 : findV (pairStep config userId userName now s (.chk i)).um.users userId
          = some u := by
        simp only [pairStep]
        rw [hframe]
        exact hu
      have hb := ih (pairStep config userId userName now s (.chk i)) u hu2 hday hp
      have hcons : (pairStep config userId userName now s (.chk i)).consumedUnits
          = s.consumedUnits := rfl
      have havq : availableOf config (pairStep config userId userName now s (.chk i)).um userId
          = availableOf config s.um userId := by
        simp only [availableOf, dailyUsageOf, purchasedOf, hu2, hu]
      rw [hcons, havq] at hb
      exact hb
    | con i =>
      by_cases hcb : (findV s.results i).getD false = true
      · have hc := consumeQuota_one_unit s.um config userId userName "图生图" now u hu hday hp
        obtain ⟨hrl, ⟨u2, hu2eq, hlr2, hp2, hav2⟩, hfp⟩ := hc
        have hstep : pairStep config userId userName now s (.con i)
            = { um := (consumeQuota s.um config userId userName "图生图" 1 now).1
                results := s.results
                consumedUnits := s.consumedUnits
                  + (consumeQuota s.um config userId userName "图生图" 1 now).2.freeUsed
                  + (consumeQuota s.um config userId userName "图生图" 1 now).2.purchasedUsed } := by
          simp [pairStep, hcb]
        have hu2 : findV (pairStep config userId userName now s (.con i)).um.users userId
            = some u2 := by
          rw [hstep]
          exact hu2eq
        have hday2 : dayOf u2.lastDailyReset = dayOf now := by rw [hlr2]; exact hday
        have hb := ih (pairStep config userId userName now s (.con i)) u2 hu2 hday2 hp2
        have havq : availableOf config (pairStep config userId userName now s (.con i)).um userId
            = availableOf config s.um userId - min (availableOf config s.um userId) 1 := by
          rw [← hav2]
          simp only [availableOf, dailyUsageOf, purchasedOf, hu2]
        have hcons : (pairStep config userId userName now s (.con i)).consumedUnits
            = s.consumedUnits + min (availableOf config s.um userId) 1 := by
          rw [hstep]
          simp only []
          omega
        rw [hcons, havq] at hb
        omega
      · have hstep : pairStep config userId userName now s (.con i) = s := by
          simp only [pairStep]
          rw [if_neg (by simpa using hcb)]
        rw [hstep]
        exact ih s u hu hday hp

/-- Serialized pairs (each check immediately followed by its consume): with a
fresh result slot per pair and the rate limit not binding, exactly
min(number of pairs, available) checks are allowed and every pair is recorded. -/
theorem runPairs_serial (config : Config) (userId userName : String) (now : Nat)
    (hadmin : isAdmin userId config = false) (hwin : 1 ≤ config.rateLimitWindow) :
    ∀ (idxs : List Nat) (s : PairRunState) (u : UserData) (k : Nat),
    findV s.um.users userId = some u →
    dayOf u.lastDailyReset = dayOf now →
    0 ≤ u.remainingPurchasedCount →
    (findV s.um.rateLimitMap userId).getD [] = List.replicate k now →
    k + idxs.length ≤ config.rateLimitMax →
    (∀ i ∈ idxs, findV s.results i = none) →
    idxs.Nodup →
    ((runPairOps config userId userName now s (pairScheduleOf idxs)).results.countP
        (fun e => e.2)
      = s.results.countP (fun e => e.2)
        + min idxs.length (availableOf config s.um userId).toNat)
    ∧ (runPairOps config userId userName now s (pairScheduleOf idxs)).results.length
      = s.results.length + idxs.length := by
  intro idxs
  induction idxs with
  | nil =>
    intro s u k hu hday hp hrate hmax hfresh hnodup
    simp [runPairOps, pairScheduleOf]
  | cons i idxs ih =>
    intro s u k hu hday hp hrate hmax hfresh hnodup
    have hsched : pairScheduleOf (i :: idxs)
        = PairOp.chk i :: PairOp.con i :: pairScheduleOf idxs := by
      simp [pairScheduleOf]
    rw [hsched]
    have hchk := checkAndReserveQuota_one_unit s.um config userId userName now u k hadmin hu
      hday hrate (by simp at hmax; omega) hwin
    have hfresh0 : findV s.results i = none := hfresh i (List.mem_cons_self _ _)
    have hav0 : 0 ≤ availableOf config s.um userId := by
      simp only [availableOf, dailyUsageOf, purchasedOf, hu]
      omega
    rw [show runPairOps config userId userName now s
          (PairOp.chk i :: PairOp.con i :: pairScheduleOf idxs)
        = runPairOps config userId userName now
            (pairStep config userId userName now
              (pairStep config userId userName now s (.chk i)) (.con i))
            (pairScheduleOf idxs) from rfl]
    set s1 := pairStep config userId userName now s (.chk i) with hs1eq
    have hs1 : s1
        = { um := (checkAndReserveQuota s.um config userId userName 1 none now).1
            results := s.results
              ++ [(i, (checkAndReserveQuota s.um config userId userName 1 none now).2.allowed)]
            consumedUnits := s.consumedUnits } := by
      rw [hs1eq]
      simp [pairStep, setV_of_findV_none _ _ _ hfresh0]
    have hu1 : findV s1.um.users userId = some u := by
      rw [hs1]
      simp only []
      rw [hchk.1]
      exact hu
    have hav1 : availableOf config s1.um userId = availableOf config s.um userId := by
      simp only [availableOf, dailyUsageOf, purchasedOf, hu1, hu]
    have hrate1 : (findV s1.um.rateLimitMap userId).getD [] = List.replicate (k + 1) now := by
      rw [hs1]
      simp only []
      rw [hchk.1]
      simp [findV_setV_self]
    have hmax2 : (k + 1) + idxs.length ≤ config.rateLimitMax := by
      simp at hmax
      omega
    have hnodup2 : idxs.Nodup := (List.nodup_cons.mp hnodup).2
    have hji : ∀ j ∈ idxs, ¬ (i = j) := by
      intro j hj hh
      subst hh
      exact (List.nodup_cons.mp hnodup).1 hj
    by_cases hava : 1 ≤ availableOf config s.um userId
    · -- the check is allowed and the consume runs
      have hallow : (checkAndReserveQuota s.um config userId userName 1 none now).2.allowed
          = true := hchk.2.mpr hava
      have hlook : (findV s1.results i).getD false = true := by
        rw [hs1]
        simp only []
        rw [findV_append, hfresh0]
        simp [findV, hallow]
      have hcons := consumeQuota_one_unit s1.um config userId userName "图生图" now u hu1
        hday hp
      obtain ⟨hrl2, ⟨u2, hu2eq, hlr2, hp2, hav2⟩, hfp2⟩ := hcons
      have hs2 : pairStep config userId userName now s1 (.con i)
          = { um := (consumeQuota s1.um config userId userName "图生图" 1 now).1
              results := s1.results
              consumedUnits := s1.consumedUnits
                + (consumeQuota s1.um config userId userName "图生图" 1 now).2.freeUsed
                + (consumeQuota s1.um config userId userName "图生图" 1 now).2.purchasedUsed } := by
        simp [pairStep, hlook]
      have hu2f : findV (pairStep config userId userName now s1 (.con i)).um.users userId
          = some u2 := by
        rw [hs2]
        exact hu2eq
      have hday2 : dayOf u2.lastDailyReset = dayOf now := by rw [hlr2]; exact hday
      have hrate2 : (findV (pairStep config userId userName now s1
          (.con i)).um.rateLimitMap userId).getD [] = List.replicate (k + 1) now := by
        rw [hs2]
        simp only []
        rw [hrl2]
        exact hrate1
      have hfresh2 : ∀ j ∈ idxs,
          findV (pairStep config userId userName now s1 (.con i)).results j = none := by
        intro j hj
        rw [hs2]
        simp only []
        rw [hs1]
        simp only []
        rw [findV_append, hfresh j (List.mem_cons_of_mem _ hj)]
        simp [findV, hji j hj]
      have hih := ih (pairStep config userId userName now s1 (.con i)) u2 (k + 1)
        hu2f hday2 hp2 hrate2 hmax2 hfresh2 hnodup2
      have havr : availableOf config (pairStep config userId userName now s1 (.con i)).um
          userId = availableOf config s.um userId - 1 := by
        rw [hs2]
        simp only []
        calc (availableOf config
                (consumeQuota s1.um config userId userName "图生图" 1 now).1 userId)
            = 0 ⊔ (config.dailyFreeLimit - u2.dailyUsageCount)
              + u2.remainingPurchasedCount := by
              simp only [availableOf, dailyUsageOf, purchasedOf, hu2eq]
          _ = availableOf config s1.um userId - min (availableOf config s1.um userId) 1 :=
              hav2
          _ = availableOf config s.um userId - 1 := by
              rw [hav1]
              omega
      have hres2 : (pairStep config userId userName now s1 (.con i)).results
          = s.results ++ [(i, true)] := by
        rw [hs2]
        simp only []
        rw [hs1]
        simp only []
        rw [hallow]
      rw [hih.1, hih.2, hres2, havr]
      constructor
      · rw [List.countP_append]
        simp only [List.countP_cons, List.countP_nil]
        have h1 : (availableOf config s.um userId - 1).toNat
            = (availableOf config s.um userId).toNat - 1 := by omega
        have h2 : 1 ≤ (availableOf config s.um userId).toNat := by omega
        simp
        omega
      · simp
        omega
    · -- no capacity: the check is denied and the consume is skipped
      have hallow : (checkAndReserveQuota s.um config userId userName 1 none now).2.allowed
          = false := by
        cases hb : (checkAndReserveQuota s.um config userId userName 1 none now).2.allowed with
        | false => rfl
        | true => exact absurd (hchk.2.mp hb) hava
      have hlook : (findV s1.results i).getD false = false := by
        rw [hs1]
        simp only []
        rw [findV_append, hfresh0]
        simp [findV, hallow]
      have hs2 : pairStep config userId userName now s1 (.con i) = s1 := by
        simp [pairStep, hlook]
      rw [hs2]
      have hfresh2 : ∀ j ∈ idxs, findV s1.results j = none := by
        intro j hj
        rw [hs1]
        simp only []
        rw [findV_append, hfresh j (List.mem_cons_of_mem _ hj)]
        simp [findV, hji j hj]
      have hih := ih s1 u (k + 1) hu1 hday hp hrate1 hmax2 hfresh2 hnodup2
      have hres2 : s1.results = s.results ++ [(i, false)] := by
        rw [hs1]
        simp only []
        rw [hallow]
      rw [hih.1, hih.2, hres2, hav1]
      constructor
      · rw [List.countP_append]
        simp only [List.countP_cons, List.countP_nil]
        have h0 : (availableOf config s.um userId).toNat = 0 := by omega
        simp [h0]
      · simp
        omega

/-- Claim C2, amended: with 3 total available units, in every interleaving of
N > 3 atomic 1-unit check-and-consume pairs the balances are decremented by at
most 3 units in total; and in the Task-Gate-serialized interleaving (each
check immediately followed by its consume) exactly 3 pairs succeed and the
remaining N - 3 are denied. In arbitrary interleavings more than 3 checks can
be admitted, because checkAndReserveQuota reserves nothing. -/
theorem c2_bounded_concurrency (config : Config) (userId userName : String) (now : Nat)
    (st : UserManagerState) (u : UserData) (N : Nat) (ops : List PairOp)
    (hu : findV st.users userId = some u)
    (hday : dayOf u.lastDailyReset = dayOf now)
    (hp : 0 ≤ u.remainingPurchasedCount)
    (hav : availableOf config st userId = 3)
    (hadmin : isAdmin userId config = false)
    (hrate : (findV st.rateLimitMap userId).getD [] = [])
    (hwin : 1 ≤ config.rateLimitWindow)
    (hmax : N ≤ config.rateLimitMax)
    (hN : 3 < N) :
    (runPairOps config userId userName now
      { um := st, results := [], consumedUnits := 0 } ops).consumedUnits ≤ 3
    ∧ (runPairOps config userId userName now
        { um := st, results := [], consumedUnits := 0 } (serialSchedule N)).results.countP
        (fun e => e.2) = 3
    ∧ (runPairOps config userId userName now
        { um := st, results := [], consumedUnits := 0 } (serialSchedule N)).results.length
      = N := by
  refine ⟨?_, ?_, ?_⟩
  · have hb := runPairs_consumed_bound config userId userName now ops
      { um := st, results := [], consumedUnits := 0 } u hu hday hp
    simp only [] at hb
    rw [hav] at hb
    simpa using hb
  · have hs := runPairs_serial config userId userName now hadmin hwin (List.range N)
      { um := st, results := [], consumedUnits := 0 } u 0
      hu hday hp (by simpa using hrate) (by simpa using hmax)
      (fun j hj => rfl) (List.nodup_range N)
    rw [show serialSchedule N = pairScheduleOf (List.range N) from rfl]
    rw [hs.1]
    simp only [List.countP_nil, List.length_range, hav]
    omega
  · have hs := runPairs_serial config userId userName now hadmin hwin (List.range N)
      { um := st, results := [], consumedUnits := 0 } u 0
      hu hday hp (by simpa using hrate) (by simpa using hmax)
      (fun j hj => rfl) (List.nodup_range N)
    rw [show serialSchedule N = pairScheduleOf (List.range N) from rfl]
    rw [hs.2]
    simp

/-- Witness for c2_bounded_concurrency at the concrete 3-unit account, N = 4
and the all-checks-first interleaving. -/
theorem c2_bounded_concurrency_witness :
    (runPairOps boundedConfig "u1" "Alice" exampleNow
      { um := stateAvail3, results := [], consumedUnits := 0 }
      allChecksFirstSchedule).consumedUnits ≤ 3
    ∧ (runPairOps boundedConfig "u1" "Alice" exampleNow
        { um := stateAvail3, results := [], consumedUnits := 0 }
        (serialSchedule 4)).results.countP (fun e => e.2) = 3
    ∧ (runPairOps boundedConfig "u1" "Alice" exampleNow
        { um := stateAvail3, results := [], consumedUnits := 0 }
        (serialSchedule 4)).results.length = 4 :=
  c2_bounded_concurrency boundedConfig "u1" "Alice" exampleNow stateAvail3 aliceAvail3 4
    allChecksFirstSchedule (by decide) (by decide) (by decide) (by decide) (by decide)
    (by decide) (by decide) (by decide) (by decide)

end AkaGen
